import Mathlib

/-!
Verification development for the transcription pipeline repository.

The Python sources under `src/` are shallowly embedded as executable Lean
definitions: pure functions become Lean functions, the Postgres store and the
local filesystem become explicit state values threaded through the service
functions, external collaborators (yt-dlp metadata extraction, the yt-dlp
audio fetch, the whisperx transcription and alignment engine) are a `World`
of oracles, raised Python exceptions become `Except` errors, and every
observable side call (metadata extraction, audio fetch, transcription,
transcript-cache reads and writes, skip warnings) is emitted into an event
trace so that claims about "zero calls" are expressible.

Each definition carries a comment naming the source function that it embeds.
-/

namespace TranscriptionPipeline

/-- Deterministic track identifier. The source computes
`uuid.uuid5(uuid.NAMESPACE_URL, name)`; we idealize the version-5 UUID as an
injective deterministic function of the hashed name (collision-freeness is
idealized, determinism is exact). -/
structure Uuid where
  name : String
deriving DecidableEq, Repr

/-- Embeds `uuid.uuid5(uuid.NAMESPACE_URL, name)` as used throughout the
source (database_handler.py line 31, downloader.py lines 160 and 229 and 323,
transcriber.py lines 39 and 159). -/
def uuid5 (name : String) : Uuid :=
  ⟨name⟩

/-- Rendering of a UUID inside file names (the source interpolates the UUID
into an f-string); idealized injectively. -/
def Uuid.str (u : Uuid) : String :=
  u.name

/-- Embeds `schemas.TrackProcessingStatus` (schemas.py lines 16-20). -/
inductive TrackProcessingStatus where
  | PENDING
  | DOWNLOADED
  | TRANSCRIBED
  | EMBEDDED
deriving DecidableEq, Repr

/-- Position of a status along the pipeline sequence
PENDING, DOWNLOADED, TRANSCRIBED, EMBEDDED. -/
def statusIdx : TrackProcessingStatus → Nat
  | .PENDING => 0
  | .DOWNLOADED => 1
  | .TRANSCRIBED => 2
  | .EMBEDDED => 3

/-- Embeds `schemas.Transcript` (schemas.py lines 12-13). The pydantic class
declares NO fields (`class Transcript(TranscriptBase): pass` over an empty
base), so a Transcript value carries no data at all; pydantic silently drops
unknown constructor keyword arguments under its default extra-ignore policy. -/
structure Transcript where
deriving DecidableEq, Repr

/-- Scalar JSON payload values inside aligned-transcription segments. The
core only ever inspects string payloads (`segment["text"]`) and the presence
of keys (such as "chars"); every other payload (floats, nested arrays or
objects) is modelled opaquely by an indexed constructor. -/
inductive JVal where
  | null
  | bool (b : Bool)
  | str (s : String)
  | intv (n : Int)
  | opaqueVal (tag : Nat)
deriving DecidableEq, Repr

/-- A transcription segment: a Python dict from string keys to payloads. -/
abbrev Segment : Type :=
  List (String × JVal)

/-- Dict membership test, `key in segment`. -/
def Segment.hasKey (seg : Segment) (k : String) : Bool :=
  seg.any (fun kv => kv.1 == k)

/-- Embeds Python `dict.setdefault(k, v)`: keep the dict if the key is
present, otherwise add the key bound to `v`. -/
def Segment.setDefaultKey (seg : Segment) (k : String) (v : JVal) : Segment :=
  if seg.hasKey k then seg else seg ++ [(k, v)]

/-- Dict lookup, `segment[k]` as an Option. -/
def Segment.lookupKey (seg : Segment) (k : String) : Option JVal :=
  (seg.find? (fun kv => kv.1 == k)).map (fun kv => kv.2)

/-- Embeds whisperx `AlignedTranscriptionResult` at the shape the core
manipulates: a dict holding a "segments" list of segment dicts (the remaining
top-level keys, such as word_segments, are carried opaquely in `rest`). The
transcript cache files are written by `json.dump` of such a value and read
back by `json.load`, which round-trips it. -/
structure AlignedTranscriptionResult where
  segments : List Segment
  rest : List (String × JVal) := []
deriving DecidableEq, Repr

/-- Contents of a file in the modelled filesystem: an opaque audio artifact,
a JSON transcript cache file, or a plain-text transcript rendering. -/
inductive FileData where
  | audio
  | jsonFile (r : AlignedTranscriptionResult)
  | textFile (s : String)
deriving DecidableEq, Repr

/-- The local filesystem: a finite map from paths to file contents. -/
structure FS where
  entries : List (String × FileData)
deriving DecidableEq, Repr

/-- Embeds `Path.exists()`. -/
def FS.pathExists (fs : FS) (p : String) : Bool :=
  fs.entries.any (fun e => e.1 == p)

/-- File read (`open(p)` plus parsing). -/
def FS.lookup (fs : FS) (p : String) : Option FileData :=
  (fs.entries.find? (fun e => e.1 == p)).map (fun e => e.2)

/-- File write (`open(p, "w")`), overwriting any previous file at `p`. -/
def FS.write (fs : FS) (p : String) (d : FileData) : FS :=
  ⟨(p, d) :: fs.entries.filter (fun e => !(e.1 == p))⟩

/-- Embeds `schemas.Track` (schemas.py lines 23-49), field for field. Note
that the model declares `transcriptions` and `embedding` but NO field named
`transcript`; pydantic URL normalization is not modelled (`webpage_url` is
kept as its string). Floats are modelled as rationals. -/
structure Track where
  uuid : Uuid
  id : Option Int := none
  title : String
  webpage_url : String
  download_url : String
  uploader : Option String := none
  duration_seconds : Option Rat := none
  playlist_title : Option String := none
  playlist_url : Option String := none
  track_number_in_playlist : Option Int := none
  status : TrackProcessingStatus := .PENDING
  audio_file_path : Option String := none
  transcriptions : Option (List Transcript) := none
  embedding : Option (List Rat) := none
deriving DecidableEq, Repr

/-- Row of the `tracks` table (database/models.py lines 23-57); the surrogate
autoincrement integer id is not modelled, rows are keyed by the unique
`track_uuid` column. -/
structure TrackRow where
  track_uuid : Uuid
  title : String
  webpage_url : String
  download_url : String
  playlist_url : Option String := none
  track_number_in_playlist : Option Int := none
  uploader : Option String := none
  status : TrackProcessingStatus
  duration_seconds : Option Rat := none
  audio_file_path : Option String := none
deriving DecidableEq, Repr

/-- Row of the `transcripts` table (database/models.py lines 60-83). -/
structure TranscriptRow where
  track_uuid : Uuid
  aligned_segments_data : Option AlignedTranscriptionResult := none
  embeddings : Option (List Rat) := none
deriving DecidableEq, Repr

/-- The durable Postgres store reachable through the engine: the `tracks`
and `transcripts` tables. -/
structure Store where
  tracks : List TrackRow := []
  transcripts : List TranscriptRow := []
deriving DecidableEq, Repr

/-- Python exceptions raised by the embedded code. -/
inductive PyErr where
  | valueErrorNoInfo (url : String)
  | valueErrorMissingMeta (url : String)
  | exceptionCouldNotDownload (url : String)
  | fileNotFoundAfterDownload (path : String)
  | preconditionError (path : Option String)
  | jsonDecodeError (path : String)
  | textFieldError
  | noFieldTranscript
  | attributeErrorTranscript (attr : String)
deriving DecidableEq, Repr

/-- Observable side calls emitted by the embedded service functions. -/
inductive Event where
  | extractInfo (url : String)
  | fetchDownload (downloadUrl : String) (outtmpl : String)
  | transcribeCall (audioPath : String)
  | cacheRead (path : String)
  | cacheWrite (path : String)
  | logWarning (trackIndex : Nat)
  | logWarnMsg (msg : String)
deriving DecidableEq, Repr

/-- Metadata record produced by `ydl.extract_info` for one track: the fields
the source reads via `info.get(...)` / `entry.get(...)`. An absent key and a
key present with value None are collapsed into `none`. -/
structure TrackInfo where
  title : Option String := none
  webpage_url : Option String := none
  url : Option String := none
  uploader : Option String := none
  duration : Option Rat := none

/-- Metadata record produced by `ydl.extract_info` for a playlist. -/
structure PlaylistInfo where
  title : Option String := none
  entries : List TrackInfo := []

/-- The external black-box collaborators: yt-dlp metadata resolution for a
single track and for a playlist, the yt-dlp audio fetch (modelled as an
arbitrary transformation of the filesystem, given the media url and the
output template base), and the whisperx transcribe-plus-align engine
(modelled as a function of the audio path). -/
structure World where
  trackInfo : String → Option TrackInfo
  playlistInfo : String → Option PlaylistInfo
  fetch : String → String → FS → FS
  transcribe : String → AlignedTranscriptionResult

/-- Python truthiness test `not x` for an optional string: true on None and
on the empty string. -/
def strFalsy : Option String → Bool
  | none => true
  | some s => s.isEmpty

/-- The skip condition of the playlist loop (downloader.py line 199): the
canonical url or the media url of an entry is missing. -/
def skipB (e : TrackInfo) : Bool :=
  strFalsy e.webpage_url || strFalsy e.url

/-- Embeds `PostgresDatabase.track_is_transcribed` (database_handler.py lines
30-39): count the rows whose `track_uuid` equals `uuid5(NAMESPACE_URL, url)`
and whose status equals TRANSCRIBED, and return whether the count is
positive. -/
def track_is_transcribed (s : Store) (webpage_url : String) : Bool :=
  s.tracks.any (fun r =>
    r.track_uuid == uuid5 webpage_url && r.status == .TRANSCRIBED)

/-- The row value built by `insert_track` from a Track
(database_handler.py lines 42-55). -/
def trackRowOf (t : Track) : TrackRow :=
  { track_uuid := t.uuid
    title := t.title
    webpage_url := t.webpage_url
    download_url := t.download_url
    playlist_url := t.playlist_url
    track_number_in_playlist := t.track_number_in_playlist
    uploader := t.uploader
    status := t.status
    duration_seconds := t.duration_seconds
    audio_file_path := t.audio_file_path }

/-- Embeds `PostgresDatabase.insert_track` (database_handler.py lines
41-83): an insert with an on-conflict-do-update clause on the unique
`track_uuid` index, overwriting every mutable column with the incoming
value. -/
def insert_track (s : Store) (t : Track) : Store :=
  if s.tracks.any (fun r => r.track_uuid == t.uuid) then
    { s with tracks := s.tracks.map (fun r =>
        if r.track_uuid == t.uuid then trackRowOf t else r) }
  else
    { s with tracks := s.tracks ++ [trackRowOf t] }

/-- Embeds `PostgresDatabase.insert_transcript` (database_handler.py lines
85-107). The function immediately reads `transcript.uuid`, but
`schemas.Transcript` declares no fields at all, so the attribute access
raises AttributeError before any SQL is issued. -/
def insert_transcript (_s : Store) (_t : Transcript) :
    Except PyErr Store :=
  .error (.attributeErrorTranscript "uuid")

/-- Status of the stored row with the given uuid, if any. -/
def storedTrackStatus (s : Store) (u : Uuid) : Option TrackProcessingStatus :=
  (s.tracks.find? (fun r => r.track_uuid == u)).map (fun r => r.status)

/-- Configuration of a downloader service: its `save_directory`. -/
structure DownloaderCfg where
  save_directory : String

/-- Embeds `IDownloaderService.unique_audio_file_path` (downloader.py lines
40-53): `save_directory / f"{uuid5(NAMESPACE_URL, webpage_url)}.wav"`. -/
def unique_audio_file_path (cfg : DownloaderCfg) (webpage_url : String) :
    String :=
  cfg.save_directory ++ "/" ++ (uuid5 webpage_url).str ++ ".wav"

/-- The audio artifact path written as a function of a resolved id; for every
url, `unique_audio_file_path cfg url = audioPathOfUuid cfg (uuid5 url)`. -/
def audioPathOfUuid (cfg : DownloaderCfg) (u : Uuid) : String :=
  cfg.save_directory ++ "/" ++ u.str ++ ".wav"

/-- The yt-dlp output template base used by `_download_track`:
`str(output_file_path.with_suffix(""))`, the artifact path without its
".wav" suffix. -/
def audioOuttmplBase (cfg : DownloaderCfg) (webpage_url : String) : String :=
  cfg.save_directory ++ "/" ++ (uuid5 webpage_url).str

/-- Embeds `SoundcloudDownloaderService._get_track_metadata` (downloader.py
lines 94-132): extract the metadata, raise ValueError when yt-dlp returns no
info or when the canonical or media url is missing (Python falsiness: None or
empty), return None when the store already records the track as transcribed,
and otherwise build a PENDING Track whose uuid is the uuid5 of the canonical
url. -/
def getTrackMetadata (world : World) (s : Store) (track_url : String) :
    Except PyErr (Option Track) × List Event :=
  match world.trackInfo track_url with
  | none => (.error (.valueErrorNoInfo track_url), [.extractInfo track_url])
  | some info =>
    if strFalsy info.webpage_url || strFalsy info.url then
      (.error (.valueErrorMissingMeta track_url), [.extractInfo track_url])
    else
      let wu := info.webpage_url.getD ""
      if track_is_transcribed s wu then
        (.ok none, [.extractInfo track_url])
      else
        (.ok (some
          { uuid := uuid5 wu
            title := info.title.getD "Unknown Title"
            webpage_url := wu
            download_url := info.url.getD ""
            uploader := info.uploader
            duration_seconds := info.duration
            status := .PENDING }), [.extractInfo track_url])

/-- Embeds `SoundcloudDownloaderService._download_track` (downloader.py lines
134-168): if the artifact already exists at the deterministic path, skip the
fetch; otherwise invoke the yt-dlp fetch into the output template and raise
FileNotFoundError when the artifact is still absent afterwards; in either
successful case set `audio_file_path` and set status to DOWNLOADED. -/
def downloadTrackArtifact (cfg : DownloaderCfg) (world : World) (t : Track)
    (fs : FS) : Except PyErr Track × FS × List Event :=
  let p := unique_audio_file_path cfg t.webpage_url
  if fs.pathExists p then
    (.ok { t with audio_file_path := some p, status := .DOWNLOADED }, fs, [])
  else
    let base := audioOuttmplBase cfg t.webpage_url
    let fs1 := world.fetch t.download_url base fs
    if fs1.pathExists p then
      (.ok { t with audio_file_path := some p, status := .DOWNLOADED }, fs1,
        [.fetchDownload t.download_url base])
    else
      (.error (.fileNotFoundAfterDownload p), fs1,
        [.fetchDownload t.download_url base])

/-- The Track built from a valid playlist entry at enumeration index `idx`
(downloader.py lines 213-225): uuid is the uuid5 of the canonical url, the
playlist context is attached, `playlist_title` only when truthy, and the
track number is the 1-based enumeration index. -/
def entryTrack (playlist_url : String) (playlist_title : Option String)
    (idx : Nat) (e : TrackInfo) : Track :=
  { uuid := uuid5 (e.webpage_url.getD "")
    title := e.title.getD ("Unknown Title Track " ++ toString (idx + 1))
    webpage_url := e.webpage_url.getD ""
    download_url := e.url.getD ""
    uploader := e.uploader
    duration_seconds := e.duration
    playlist_title := if strFalsy playlist_title then none else playlist_title
    playlist_url := some playlist_url
    track_number_in_playlist := some (Int.ofNat (idx + 1))
    status := .PENDING }

/-- Per-entry worker of `_get_playlist_tracks_metadata` (downloader.py lines
192-231): walk the entries with their enumeration index, skip an entry with a
logged warning when its canonical or media url is falsy, skip it silently
when the store already records it as transcribed, and otherwise collect a
PENDING Track carrying the playlist context. -/
def collectPlaylistTracks (s : Store) (playlist_url : String)
    (playlist_title : Option String) :
    List TrackInfo → Nat → List Track × List Event
  | [], _ => ([], [])
  | e :: rest, idx =>
    let next := collectPlaylistTracks s playlist_url playlist_title rest
      (idx + 1)
    if skipB e then
      (next.1, .logWarning (idx + 1) :: next.2)
    else
      if track_is_transcribed s (e.webpage_url.getD "") then
        next
      else
        (entryTrack playlist_url playlist_title idx e :: next.1, next.2)

/-- Embeds `SoundcloudDownloaderService._get_playlist_tracks_metadata`
(downloader.py lines 170-231): no info or no entries yield an empty list with
a warning; otherwise the entries are walked by `collectPlaylistTracks`. -/
def getPlaylistTracksMetadata (world : World) (s : Store)
    (playlist_url : String) : List Track × List Event :=
  match world.playlistInfo playlist_url with
  | none => ([], [.extractInfo playlist_url, .logWarnMsg "no info"])
  | some info =>
    if info.entries.isEmpty then
      ([], [.extractInfo playlist_url, .logWarnMsg "no entries"])
    else
      let out := collectPlaylistTracks s playlist_url info.title
        info.entries 0
      (out.1, .extractInfo playlist_url :: out.2)

/-- Embeds `SoundcloudDownloaderService.download_track` (downloader.py lines
233-237): resolve the metadata; when `_get_track_metadata` returns None
(which happens exactly when the store already records the track as
transcribed) raise `Exception("Could not download track: ...")`; otherwise
run `_download_track`. -/
def download_track (cfg : DownloaderCfg) (world : World) (s : Store)
    (webpage_url : String) (fs : FS) :
    Except PyErr Track × FS × List Event :=
  match getTrackMetadata world s webpage_url with
  | (.error e, ev) => (.error e, fs, ev)
  | (.ok none, ev) => (.error (.exceptionCouldNotDownload webpage_url), fs, ev)
  | (.ok (some t), ev) =>
    match downloadTrackArtifact cfg world t fs with
    | (r, fs1, ev1) => (r, fs1, ev ++ ev1)

/-- Loop body of `download_playlist` (downloader.py lines 239-243): run
`_download_track` on each collected track in order; a raised error aborts the
remaining batch; since `_download_track` mutates its argument in place, the
returned list observes the updated tracks. -/
def downloadAllTracks (cfg : DownloaderCfg) (world : World) :
    List Track → FS → Except PyErr (List Track) × FS × List Event
  | [], fs => (.ok [], fs, [])
  | t :: rest, fs =>
    match downloadTrackArtifact cfg world t fs with
    | (.error e, fs1, ev) => (.error e, fs1, ev)
    | (.ok t1, fs1, ev) =>
      match downloadAllTracks cfg world rest fs1 with
      | (r, fs2, ev1) =>
        (r.map (fun ts => t1 :: ts), fs2, ev ++ ev1)

/-- Embeds `SoundcloudDownloaderService.download_playlist` (downloader.py
lines 239-243). -/
def download_playlist (cfg : DownloaderCfg) (world : World) (s : Store)
    (playlist_url : String) (fs : FS) :
    Except PyErr (List Track) × FS × List Event :=
  let meta := getPlaylistTracksMetadata world s playlist_url
  match downloadAllTracks cfg world meta.1 fs with
  | (r, fs1, ev1) => (r, fs1, meta.2 ++ ev1)

/-- Configuration of a transcriber service: its `save_directory`. -/
structure TranscriberCfg where
  save_directory : String

/-- Embeds `ITranscriberService.unique_transcript_file_path` (transcriber.py
lines 27-40): `save_directory / f"{uuid5(NAMESPACE_URL, webpage_url)}.{ext}"`. -/
def unique_transcript_file_path (cfg : TranscriberCfg) (webpage_url : String)
    (extension : String) : String :=
  cfg.save_directory ++ "/" ++ (uuid5 webpage_url).str ++ "." ++ extension

/-- Worker of `_save_aligned_transcript_as_raw_text` (transcriber.py lines
85-90): concatenate `segment["text"].strip()` plus a newline over the
segments; a segment whose "text" entry is absent or not a string raises
(KeyError or AttributeError, collapsed into one error). -/
def rawTextSegments : List Segment → Except PyErr String
  | [] => .ok ""
  | seg :: rest =>
    match seg.lookupKey "text" with
    | some (.str s) =>
      match rawTextSegments rest with
      | .ok acc => .ok (s.trim ++ "\n" ++ acc)
      | .error e => .error e
    | _ => .error .textFieldError

/-- Embeds `_save_aligned_transcript_as_raw_text`'s rendering of an aligned
result (transcriber.py lines 80-91). -/
def rawTextOfAligned (r : AlignedTranscriptionResult) : Except PyErr String :=
  rawTextSegments r.segments

/-- Whether the transcribe-stage precondition is violated: the audio file
path is unset or no artifact exists there (the condition of the ValueError at
transcriber.py lines 97-100). -/
def precondViolatedB (t : Track) (fs : FS) : Bool :=
  match t.audio_file_path with
  | none => true
  | some p => !(fs.pathExists p)

/-- Embeds `WhiserXTranscriberService._perform_transcription_and_alignment`
(transcriber.py lines 93-119): raise ValueError when the audio path is unset
or the artifact is absent, otherwise invoke the whisperx transcription and
alignment engine on the audio (load_audio, transcribe, load_align_model and
align are collapsed into the single `World.transcribe` oracle call). -/
def performTranscriptionAndAlignment (world : World) (t : Track) (fs : FS) :
    Except PyErr AlignedTranscriptionResult × List Event :=
  match t.audio_file_path with
  | none => (.error (.preconditionError none), [])
  | some p =>
    if fs.pathExists p then
      (.ok (world.transcribe p), [.transcribeCall p])
    else
      (.error (.preconditionError (some p)), [])

/-- The chars normalization loop of `transcribe_audio` (transcriber.py lines
155-156): `segment.setdefault("chars", None)` over every segment. -/
def normalizeChars (r : AlignedTranscriptionResult) :
    AlignedTranscriptionResult :=
  { r with segments := r.segments.map (fun seg =>
      seg.setDefaultKey "chars" .null) }

/-- Embeds transcriber.py lines 124-156 of
`WhiserXTranscriberService.transcribe_audio`: produce the aligned result,
normalized so that every segment carries a "chars" key. With save_to_disk
and an existing JSON cache file, load it (and write the companion plain-text
rendering when absent); with save_to_disk and no cache, transcribe and write
the JSON cache (pre-normalization, as the source saves before the
normalization loop) and then the plain-text rendering; without save_to_disk,
just transcribe. -/
def transcribeAlignedResult (cfg : TranscriberCfg) (world : World) (t : Track)
    (save_to_disk : Bool) (fs : FS) :
    Except PyErr AlignedTranscriptionResult × FS × List Event :=
  let jsonPath := unique_transcript_file_path cfg t.webpage_url "json"
  if save_to_disk then
    if fs.pathExists jsonPath then
      match fs.lookup jsonPath with
      | some (.jsonFile r) =>
        let txtPath := unique_transcript_file_path cfg t.webpage_url "txt"
        if fs.pathExists txtPath then
          (.ok (normalizeChars r), fs, [.cacheRead jsonPath])
        else
          match rawTextOfAligned r with
          | .ok raw =>
            (.ok (normalizeChars r), fs.write txtPath (.textFile raw),
              [.cacheRead jsonPath, .cacheWrite txtPath])
          | .error e => (.error e, fs, [.cacheRead jsonPath])
      | _ => (.error (.jsonDecodeError jsonPath), fs, [.cacheRead jsonPath])
    else
      match performTranscriptionAndAlignment world t fs with
      | (.ok r, ev) =>
        let fs1 := fs.write jsonPath (.jsonFile r)
        let txtPath := unique_transcript_file_path cfg t.webpage_url "txt"
        match rawTextOfAligned r with
        | .ok raw =>
          (.ok (normalizeChars r), fs1.write txtPath (.textFile raw),
            ev ++ [.cacheWrite jsonPath, .cacheWrite txtPath])
        | .error e => (.error e, fs1, ev ++ [.cacheWrite jsonPath])
      | (.error e, ev) => (.error e, fs, ev)
  else
    match performTranscriptionAndAlignment world t fs with
    | (.ok r, ev) => (.ok (normalizeChars r), fs, ev)
    | (.error e, ev) => (.error e, fs, ev)

/-- Embeds `WhiserXTranscriberService.transcribe_audio` (transcriber.py lines
121-166). After producing the normalized aligned result, the source builds
`Transcript(uuid=..., aligned_result=...)` — but `schemas.Transcript`
declares no fields, so pydantic silently drops both keyword arguments — and
then executes `track.transcript = transcript`; `schemas.Track` declares no
field named `transcript`, so pydantic raises
`ValueError: "Track" object has no field "transcript"` there, before the
status assignment and the return statement on lines 164-166. -/
def transcribe_audio (cfg : TranscriberCfg) (world : World) (t : Track)
    (save_to_disk : Bool) (fs : FS) :
    Except PyErr (Track × Transcript) × FS × List Event :=
  match transcribeAlignedResult cfg world t save_to_disk fs with
  | (.ok _r, fs1, ev) => (.error .noFieldTranscript, fs1, ev)
  | (.error e, fs1, ev) => (.error e, fs1, ev)

/-- The configuration fields of `config.Settings` consumed by `main.run`. -/
structure Settings where
  URL : String
  IS_PLAYLIST : Bool

/-- The per-track loop of `main.run` (main.py lines 28-33): for each track
(every element of the list is a model instance, hence truthy), call
`transcribe_audio(track, save_to_disk=True)`; its results are bound to unused
variables and an uncaught error aborts the remaining loop. -/
def processTracks (cfgT : TranscriberCfg) (world : World) :
    List Track → FS → Except PyErr Unit × FS × List Event
  | [], fs => (.ok (), fs, [])
  | t :: rest, fs =>
    match transcribe_audio cfgT world t true fs with
    | (.error e, fs1, ev) => (.error e, fs1, ev)
    | (.ok _, fs1, ev) =>
      match processTracks cfgT world rest fs1 with
      | (r, fs2, ev1) => (r, fs2, ev ++ ev1)

/-- Embeds `main.run` (main.py lines 14-33): download the playlist or the
single track, then transcribe each obtained track with save_to_disk. The
`database_service` argument of the source function is used only inside the
downloader's already-transcribed checks; `run` itself never writes to the
store (no `insert_track` or `insert_transcript` call occurs anywhere in it),
so the store is returned unchanged on every path. -/
def run (st : Settings) (cfgD : DownloaderCfg) (cfgT : TranscriberCfg)
    (world : World) (s : Store) (fs : FS) :
    Except PyErr Unit × Store × FS × List Event :=
  if st.IS_PLAYLIST then
    match download_playlist cfgD world s st.URL fs with
    | (.error e, fs1, ev) => (.error e, s, fs1, ev)
    | (.ok ts, fs1, ev) =>
      match processTracks cfgT world ts fs1 with
      | (r, fs2, ev1) => (r, s, fs2, ev ++ ev1)
  else
    match download_track cfgD world s st.URL fs with
    | (.error e, fs1, ev) => (.error e, s, fs1, ev)
    | (.ok t, fs1, ev) =>
      match processTracks cfgT world [t] fs1 with
      | (r, fs2, ev1) => (r, s, fs2, ev ++ ev1)

/-- Whether an Except value is the transcribe-stage precondition ValueError. -/
def isPrecondErr {α : Type} : Except PyErr α → Bool
  | .error (.preconditionError _) => true
  | _ => false

/-- Whether an event is a read of or a write to the transcript cache. -/
def Event.isCacheEvent : Event → Bool
  | .cacheRead _ => true
  | .cacheWrite _ => true
  | _ => false

/-- Whether an event is an invocation of the transcription capability. -/
def Event.isTranscribeCall : Event → Bool
  | .transcribeCall _ => true
  | _ => false

/-- Whether an event is an invocation of the external fetch capability. -/
def Event.isFetchCall : Event → Bool
  | .fetchDownload _ _ => true
  | _ => false

/-- Concrete fixture: downloader configuration. -/
def cfgD0 : DownloaderCfg :=
  ⟨"audio"⟩

/-- Concrete fixture: transcriber configuration. -/
def cfgT0 : TranscriberCfg :=
  ⟨"transcripts"⟩

/-- Concrete fixture: canonical url of track A. -/
def urlA : String :=
  "https://x/a"

/-- Concrete fixture: media url of track A. -/
def mediaA : String :=
  "https://m/a"

/-- Concrete fixture: yt-dlp metadata for track A. -/
def infoA : TrackInfo :=
  { title := some "A", webpage_url := some urlA, url := some mediaA }

/-- Concrete fixture: a playlist entry with a missing canonical url. -/
def infoBad : TrackInfo :=
  { title := some "B", webpage_url := none, url := some "https://m/b" }

/-- Concrete fixture: yt-dlp metadata for track C. -/
def infoC : TrackInfo :=
  { title := some "C", webpage_url := some "https://x/c"
    url := some "https://m/c" }

/-- Concrete fixture: an aligned transcription result whose single segment
has a "text" entry and no "chars" entry. -/
def resultA : AlignedTranscriptionResult :=
  { segments := [[("text", .str "hello")]] }

/-- Concrete fixture: a world where track A and playlist
"https://p" (entries A, B-with-missing-url, C) resolve, the fetch capability
writes the artifact at the requested output template plus ".wav", and the
transcription capability returns `resultA`. -/
def worldA : World :=
  { trackInfo := fun u => if u == urlA then some infoA else none
    playlistInfo := fun u =>
      if u == "https://p" then
        some { title := some "P", entries := [infoA, infoBad, infoC] }
      else none
    fetch := fun _ base fs => fs.write (base ++ ".wav") .audio
    transcribe := fun _ => resultA }

/-- Concrete fixture: the empty store. -/
def store0 : Store :=
  {}

/-- Concrete fixture: the empty filesystem. -/
def fs0 : FS :=
  ⟨[]⟩

/-- Concrete fixture: a store holding track A at status TRANSCRIBED. -/
def storeTrA : Store :=
  { tracks := [{ track_uuid := uuid5 urlA, title := "A", webpage_url := urlA
                 download_url := mediaA, status := .TRANSCRIBED }] }

/-- Concrete fixture: a store holding track A at status EMBEDDED. -/
def storeEmbA : Store :=
  { tracks := [{ track_uuid := uuid5 urlA, title := "A", webpage_url := urlA
                 download_url := mediaA, status := .EMBEDDED }] }

/-- Concrete fixture: track A as built by the metadata stage (PENDING, no
audio path). -/
def trackA : Track :=
  { uuid := uuid5 urlA, title := "A", webpage_url := urlA
    download_url := mediaA, status := .PENDING }

/-- Concrete fixture: track A after the fetch stage. -/
def trackADownloaded : Track :=
  { trackA with
    audio_file_path := some (unique_audio_file_path cfgD0 urlA)
    status := .DOWNLOADED }

/-- Concrete fixture: a filesystem holding the audio artifact for track A. -/
def fsAudioA : FS :=
  fs0.write (unique_audio_file_path cfgD0 urlA) .audio

/-- Concrete fixture: a filesystem holding a cached transcript (JSON and
plain text) for track A, but no audio artifact. -/
def fsCacheA : FS :=
  (fs0.write (unique_transcript_file_path cfgT0 urlA "json")
    (.jsonFile resultA)).write
    (unique_transcript_file_path cfgT0 urlA "txt") (.textFile "hello\n")

/-- Concrete fixture: the orchestrator settings for playlist "https://p". -/
def settingsP : Settings :=
  { URL := "https://p", IS_PLAYLIST := true }

/-- Concrete fixture: track A as collected from playlist "https://p". -/
def trackAP : Track :=
  { uuid := uuid5 urlA, title := "A", webpage_url := urlA
    download_url := mediaA, playlist_title := some "P"
    playlist_url := some "https://p"
    track_number_in_playlist := some (Int.ofNat 1), status := .PENDING }

/-- C1: the orchestrator never persists anything. `main.run` contains no call
to `insert_track` or `insert_transcript`, so the store it was given is
returned unchanged on every execution path; in particular, running it on the
playlist of valid entries with no prior store state yields zero stored Track
rows and zero stored Transcript rows (the claim asserts one row each per
entry). -/
theorem run_never_persists :
    (∀ (st : Settings) (cfgD : DownloaderCfg) (cfgT : TranscriberCfg)
      (world : World) (s : Store) (fs : FS),
      (run st cfgD cfgT world s fs).2.1 = s) ∧
    (run settingsP cfgD0 cfgT0 worldA store0 fs0).2.1.tracks.length = 0 ∧
    (run settingsP cfgD0 cfgT0 worldA store0 fs0).2.1.transcripts.length = 0 := by
  refine ⟨?_, rfl, rfl⟩
  intro st cfgD cfgT world s fs
  unfold run
  split <;> split <;> rfl

/-- C2: `transcribe_audio` never returns: on every input it raises an error
(on the successful transcription paths, the pydantic ValueError from
assigning the undeclared field `transcript` of `schemas.Track`), so it never
produces a TRANSCRIBED Track with an attached Transcript; at a concrete
valid downloaded track the raised error is exactly that field error. -/
theorem transcribe_audio_never_returns :
    (∀ (cfg : TranscriberCfg) (world : World) (t : Track) (save : Bool)
      (fs : FS), ∃ e, (transcribe_audio cfg world t save fs).1 = .error e) ∧
    (transcribe_audio cfgT0 worldA trackADownloaded false fsAudioA).1 =
      .error .noFieldTranscript := by
  refine ⟨?_, rfl⟩
  intro cfg world t save fs
  unfold transcribe_audio
  rcases h : transcribeAlignedResult cfg world t save fs with ⟨res, fs1, ev⟩
  cases res with
  | ok r => exact ⟨.noFieldTranscript, rfl⟩
  | error e => exact ⟨e, rfl⟩

/-- C3: a single-track request for a url already recorded as TRANSCRIBED
raises `Exception("Could not download track: ...")` instead of terminating
quietly: `_get_track_metadata` returns None exactly in the already-transcribed
case and `download_track` turns that None into a raised Exception. The re-run
does perform zero fetch and zero transcribe calls and leaves the filesystem
(and the never-written store) unchanged, but it errors. -/
theorem download_track_raises_on_transcribed :
    track_is_transcribed storeTrA urlA = true ∧
    download_track cfgD0 worldA storeTrA urlA fs0 =
      (.error (.exceptionCouldNotDownload urlA), fs0, [.extractInfo urlA]) :=
  ⟨rfl, rfl⟩

/-- C4 counterexample: a stored Track at status EMBEDDED (a later stage than
TRANSCRIBED) does NOT count: `track_is_transcribed` compares the status for
equality with TRANSCRIBED only, so it returns false on a store holding the
url's resolved id at EMBEDDED, where the claim asserts true. -/
theorem track_is_transcribed_false_on_embedded :
    storedTrackStatus storeEmbA (uuid5 urlA) = some .EMBEDDED ∧
    track_is_transcribed storeEmbA urlA = false :=
  ⟨rfl, rfl⟩

/-- C4 amended: `track_is_transcribed url` is true iff the store holds a row
whose `track_uuid` is the resolved id of the url and whose status is exactly
TRANSCRIBED (EMBEDDED does not count). -/
theorem track_is_transcribed_iff_exact_status (s : Store) (url : String) :
    track_is_transcribed s url = true ↔
      ∃ r, r ∈ s.tracks ∧ r.track_uuid = uuid5 url ∧
        r.status = TrackProcessingStatus.TRANSCRIBED := by
  unfold track_is_transcribed
  rw [List.any_eq_true]
  constructor
  · rintro ⟨r, hr, hb⟩
    rw [Bool.and_eq_true, beq_iff_eq, beq_iff_eq] at hb
    exact ⟨r, hr, hb.1, hb.2⟩
  · rintro ⟨r, hr, h1, h2⟩
    refine ⟨r, hr, ?_⟩
    rw [Bool.and_eq_true, beq_iff_eq, beq_iff_eq]
    exact ⟨h1, h2⟩

/-- C5 counterexample: a Track whose precondition is violated (its
`audio_file_path` is unset) raises NO precondition error when `save_to_disk`
is set and a cached transcript exists on disk: the cache hit bypasses
`_perform_transcription_and_alignment` and with it the precondition check,
contradicting the claim's "in every such case ... regardless of whether a
cached transcript exists". -/
theorem precondition_check_skipped_on_cache_hit :
    precondViolatedB trackA fsCacheA = true ∧
    fsCacheA.pathExists (unique_transcript_file_path cfgT0 urlA "json") = true ∧
    isPrecondErr (transcribe_audio cfgT0 worldA trackA true fsCacheA).1 = false :=
  ⟨rfl, rfl, rfl⟩

/-- Helper: `transcribe_audio` raises a precondition error exactly when its
aligned-result computation does (the attach step only replaces successes with
the field error). -/
theorem isPrecondErr_transcribe_audio (cfg : TranscriberCfg) (world : World)
    (t : Track) (save : Bool) (fs : FS) :
    isPrecondErr (transcribe_audio cfg world t save fs).1 =
      isPrecondErr (transcribeAlignedResult cfg world t save fs).1 := by
  unfold transcribe_audio
  rcases h : transcribeAlignedResult cfg world t save fs with ⟨res, fs1, ev⟩
  cases res with
  | ok r => rfl
  | error e => cases e <;> rfl

/-- Helper: the raw-text rendering only ever raises the text-field error. -/
theorem rawTextSegments_error (l : List Segment) (e : PyErr)
    (h : rawTextSegments l = .error e) : e = .textFieldError := by
  induction l with
  | nil => cases h
  | cons seg rest ih =>
    unfold rawTextSegments at h
    rcases hk : seg.lookupKey "text" with _ | v
    · rw [hk] at h
      cases h
      rfl
    · rw [hk] at h
      cases v with
      | str s =>
        rcases hr : rawTextSegments rest with e2 | acc
        · rw [hr] at h
          cases h
          exact ih hr
        · rw [hr] at h
          cases h
      | null => cases h; rfl
      | bool b => cases h; rfl
      | intv n => cases h; rfl
      | opaqueVal tag => cases h; rfl

/-- Helper: the raw-text rendering of an aligned result only ever raises the
text-field error. -/
theorem rawTextOfAligned_error (r : AlignedTranscriptionResult) (e : PyErr)
    (h : rawTextOfAligned r = .error e) : e = .textFieldError := by
  unfold rawTextOfAligned at h
  exact rawTextSegments_error r.segments e h

/-- Helper: `_perform_transcription_and_alignment` raises the precondition
error exactly when the precondition is violated. -/
theorem isPrecondErr_perform (world : World) (t : Track) (fs : FS) :
    isPrecondErr (performTranscriptionAndAlignment world t fs).1 =
      precondViolatedB t fs := by
  unfold performTranscriptionAndAlignment precondViolatedB
  cases t.audio_file_path with
  | none => rfl
  | some p => cases h : fs.pathExists p <;> simp [h, isPrecondErr]

/-- C5 amended: `transcribe_audio` raises the fatal precondition ValueError
iff the transcription helper is actually reached with a violated
precondition — that is, iff it is NOT the case that `save_to_disk` is set
with a cached JSON transcript present, AND the audio path is unset or the
artifact is absent. A `save_to_disk` cache hit skips the check entirely. -/
theorem precondition_error_iff (cfg : TranscriberCfg) (world : World)
    (t : Track) (save : Bool) (fs : FS) :
    isPrecondErr (transcribe_audio cfg world t save fs).1 =
      (!(save && fs.pathExists
          (unique_transcript_file_path cfg t.webpage_url "json")) &&
        precondViolatedB t fs) := by
  rw [isPrecondErr_transcribe_audio]
  unfold transcribeAlignedResult
  cases save with
  | false =>
    simp only [Bool.false_and, Bool.not_false, Bool.true_and, if_neg,
      Bool.false_eq_true, not_false_eq_true, ite_false]
    rw [← isPrecondErr_perform world t fs]
    rcases h : performTranscriptionAndAlignment world t fs with ⟨res, ev⟩
    cases res <;> rfl
  | true =>
    simp only [Bool.true_and, if_pos]
    cases hj : fs.pathExists (unique_transcript_file_path cfg t.webpage_url
      "json") with
    | true =>
      simp only [hj, Bool.not_true, Bool.false_and, if_pos]
      rcases hl : fs.lookup (unique_transcript_file_path cfg t.webpage_url
        "json") with _ | fd
      · rfl
      · cases fd with
        | audio => rfl
        | textFile s => rfl
        | jsonFile r =>
          cases ht : fs.pathExists (unique_transcript_file_path cfg
            t.webpage_url "txt") with
          | true => simp [ht, isPrecondErr]
          | false =>
            rcases hr : rawTextOfAligned r with e | raw
            · have he := rawTextOfAligned_error r e hr
              subst he
              simp [ht, hr, isPrecondErr]
            · simp [ht, hr, isPrecondErr]
    | false =>
      simp only [hj, Bool.not_false, Bool.true_and, if_neg,
        Bool.false_eq_true, not_false_eq_true, ite_false]
      rw [← isPrecondErr_perform world t fs]
      rcases h : performTranscriptionAndAlignment world t fs with ⟨res, ev⟩
      cases res with
      | ok r =>
        rcases hr : rawTextOfAligned r with e | raw
        · have he := rawTextOfAligned_error r e hr
          subst he
          simp [hr, isPrecondErr]
        · simp [hr, isPrecondErr]
      | error e => rfl

/-- Helper: the attach step of `transcribe_audio` only replaces the result
value; the filesystem and the emitted events are those of the aligned-result
computation. -/
theorem transcribe_audio_state (cfg : TranscriberCfg) (world : World)
    (t : Track) (save : Bool) (fs : FS) :
    (transcribe_audio cfg world t save fs).2 =
      (transcribeAlignedResult cfg world t save fs).2 := by
  unfold transcribe_audio
  rcases h : transcribeAlignedResult cfg world t save fs with ⟨res, fs1, ev⟩
  cases res <;> rfl

/-- Helper: without save_to_disk, the aligned-result computation leaves the
filesystem unchanged and emits exactly the events of the transcription
helper. -/
theorem transcribeAligned_save_false (cfg : TranscriberCfg) (world : World)
    (t : Track) (fs : FS) :
    (transcribeAlignedResult cfg world t false fs).2 =
      (fs, (performTranscriptionAndAlignment world t fs).2) := by
  unfold transcribeAlignedResult
  rcases h : performTranscriptionAndAlignment world t fs with ⟨res, ev⟩
  cases res <;> rfl

/-- Helper: the transcription helper emits no cache events, and emits a
transcription-capability call exactly when the precondition holds. -/
theorem perform_events (world : World) (t : Track) (fs : FS) :
    (performTranscriptionAndAlignment world t fs).2.any Event.isCacheEvent
      = false ∧
    (performTranscriptionAndAlignment world t fs).2.any Event.isTranscribeCall
      = !(precondViolatedB t fs) := by
  unfold performTranscriptionAndAlignment precondViolatedB
  cases t.audio_file_path with
  | none => exact ⟨rfl, rfl⟩
  | some p => cases h : fs.pathExists p <;> simp [h, Event.isCacheEvent,
      Event.isTranscribeCall]

/-- C10 counterexample: on a Track whose audio path is unset, calling
`transcribe_audio` with save_to_disk false raises before invoking the
transcription capability, even though a cached transcript for the resolved
id exists on disk — refuting the claim's "always invokes the external
transcription capability". (The cache itself is indeed untouched.) -/
theorem capability_not_invoked_on_precond_violation :
    fsCacheA.pathExists (unique_transcript_file_path cfgT0 urlA "json")
      = true ∧
    precondViolatedB trackA fsCacheA = true ∧
    (transcribe_audio cfgT0 worldA trackA false fsCacheA).2.2 = [] :=
  ⟨rfl, rfl, rfl⟩

/-- C10 amended: calling `transcribe_audio` with save_to_disk false never
touches the transcript cache (the filesystem is returned unchanged and no
cache read or write event is emitted), and invokes the external transcription
capability exactly when the precondition holds (audio path set and artifact
present); when the precondition is violated it raises without invoking it. -/
theorem save_false_frame (cfg : TranscriberCfg) (world : World) (t : Track)
    (fs : FS) :
    (transcribe_audio cfg world t false fs).2.1 = fs ∧
    (transcribe_audio cfg world t false fs).2.2.any Event.isCacheEvent
      = false ∧
    (transcribe_audio cfg world t false fs).2.2.any Event.isTranscribeCall
      = !(precondViolatedB t fs) := by
  rw [transcribe_audio_state, transcribeAligned_save_false]
  exact ⟨rfl, (perform_events world t fs).1, (perform_events world t fs).2⟩

/-- C6 counterexample: the gateway upsert overwrites the stored status
unconditionally with the incoming value, so upserting a PENDING track over a
stored TRANSCRIBED row moves the stored status to an earlier stage. -/
theorem insert_track_regresses_stored_status :
    storedTrackStatus storeTrA (uuid5 urlA) = some .TRANSCRIBED ∧
    storedTrackStatus (insert_track storeTrA { trackA with status := .PENDING })
      (uuid5 urlA) = some .PENDING ∧
    statusIdx .PENDING < statusIdx .TRANSCRIBED :=
  ⟨rfl, rfl, by decide⟩

/-- Helper: the status found in the conflict-updated row list. -/
theorem find?_status_update (l : List TrackRow) (t : Track) (u : Uuid) :
    ((l.map (fun r => if r.track_uuid == t.uuid then trackRowOf t else r)).find?
        (fun r => r.track_uuid == u)).map (fun r => r.status) =
      if u = t.uuid then
        (if l.any (fun r => r.track_uuid == t.uuid) = true then some t.status
         else none)
      else (l.find? (fun r => r.track_uuid == u)).map (fun r => r.status) := by
  induction l with
  | nil =>
    by_cases hu : u = t.uuid <;> simp [hu]
  | cons r l ih =>
    by_cases hr : r.track_uuid = t.uuid
    · by_cases hu : u = t.uuid
      · subst hu
        simp only [List.map_cons, if_pos (beq_iff_eq.mpr hr)]
        rw [List.find?_cons_of_pos]
        · simp [trackRowOf, List.any_cons, hr]
        · simp [trackRowOf]
      · have hne : ¬ t.uuid = u := fun h => hu h.symm
        have hne2 : ¬ r.track_uuid = u := by
          rw [hr]; exact hne
        simp only [List.map_cons, if_pos (beq_iff_eq.mpr hr)]
        rw [List.find?_cons_of_neg, List.find?_cons_of_neg]
        · rw [ih]
          simp [hu]
        · simp [hne2]
        · simp [trackRowOf, hne]
    · have hrb : (r.track_uuid == t.uuid) = false := by simp [hr]
      by_cases hru : r.track_uuid = u
      · have hu : ¬ u = t.uuid := by
          intro h; rw [h] at hru; exact hr hru
        simp only [List.map_cons, hrb, if_neg, Bool.false_eq_true,
          not_false_eq_true, ite_false]
        rw [List.find?_cons_of_pos, List.find?_cons_of_pos]
        · simp [hu]
        · simp [hru]
        · simp [hru]
      · simp only [List.map_cons, hrb, Bool.false_eq_true, not_false_eq_true,
          ite_false]
        rw [List.find?_cons_of_neg, List.find?_cons_of_neg]
        · rw [ih]
          by_cases hu : u = t.uuid <;> simp [hu, List.any_cons, hrb]
        · simp [hru]
        · simp [hru]

/-- Helper: characterization of the gateway upsert — `insert_track` makes
the stored status of the written uuid exactly the incoming status and leaves
every other uuid's stored status unchanged. -/
theorem storedTrackStatus_insert (s : Store) (t : Track) (u : Uuid) :
    storedTrackStatus (insert_track s t) u =
      if u = t.uuid then some t.status else storedTrackStatus s u := by
  unfold storedTrackStatus insert_track
  by_cases hany : s.tracks.any (fun r => r.track_uuid == t.uuid) = true
  · simp only [hany, if_pos]
    rw [find?_status_update]
    by_cases hu : u = t.uuid <;> simp [hu, hany]
  · have hany2 : s.tracks.any (fun r => r.track_uuid == t.uuid) = false :=
      Bool.not_eq_true _ ▸ eq_false_of_ne_true hany
    simp only [hany2, Bool.false_eq_true, not_false_eq_true, ite_false]
    rw [List.find?_append]
    by_cases hu : u = t.uuid
    · have hnone : s.tracks.find? (fun r => r.track_uuid == u) = none := by
        rw [List.find?_eq_none]
        intro x hx
        have hx2 := List.any_eq_false.mp hany2 x hx
        simp only [beq_iff_eq] at hx2 ⊢
        rw [hu]
        exact hx2
      rw [hnone]
      have hfind : ([trackRowOf t].find? (fun r => r.track_uuid == u)) =
          some (trackRowOf t) := by
        simp [trackRowOf, hu]
      rw [hfind]
      simp [trackRowOf, hu]
    · have hlast : ([trackRowOf t].find? (fun r => r.track_uuid == u)) =
          none := by
        have hne : ¬ t.uuid = u := fun h => hu h.symm
        simp [trackRowOf, hne]
      rw [hlast]
      cases s.tracks.find? (fun r => r.track_uuid == u) <;> simp [hu]

/-- Helper: every track collected from playlist entries has status PENDING. -/
theorem collect_status_pending (s : Store) (purl : String)
    (ptitle : Option String) (l : List TrackInfo) (k : Nat) (t : Track)
    (ht : t ∈ (collectPlaylistTracks s purl ptitle l k).1) :
    t.status = .PENDING := by
  induction l generalizing k with
  | nil => cases ht
  | cons e rest ih =>
    unfold collectPlaylistTracks at ht
    by_cases hs : skipB e = true
    · rw [if_pos hs] at ht
      exact ih (k + 1) ht
    · rw [if_neg hs] at ht
      by_cases htr : track_is_transcribed s (e.webpage_url.getD "") = true
      · rw [if_pos htr] at ht
        exact ih (k + 1) ht
      · rw [if_neg htr] at ht
        rcases List.mem_cons.mp ht with h | h
        · rw [h]
          rfl
        · exact ih (k + 1) h

/-- C6 amended: status is monotonic along the orchestrated flow — the
metadata stage (single track or playlist) only creates PENDING tracks, the
fetch stage takes any track of stage at most DOWNLOADED to DOWNLOADED
without regression, and the transcribe stage never returns a track at all
(it raises; see the transcript-attachment defect), so no reachable per-track
trace regresses. However, the fetch stage and the gateway upsert write their
argument's status unconditionally (final conjunct), which is what permits
the regression exhibited in the counterexample when they are applied to a
track at a later stage. -/
theorem status_monotone_in_flow :
    (∀ (world : World) (s : Store) (purl : String) (t : Track),
      t ∈ (getPlaylistTracksMetadata world s purl).1 →
      t.status = .PENDING) ∧
    (∀ (world : World) (s : Store) (url : String) (t : Track)
      (ev : List Event),
      getTrackMetadata world s url = (.ok (some t), ev) →
      t.status = .PENDING) ∧
    (∀ (cfg : DownloaderCfg) (world : World) (t t1 : Track) (fs fs1 : FS)
      (ev : List Event),
      downloadTrackArtifact cfg world t fs = (.ok t1, fs1, ev) →
      t1.status = .DOWNLOADED ∧
        (statusIdx t.status ≤ statusIdx .DOWNLOADED →
          statusIdx t.status ≤ statusIdx t1.status)) ∧
    (∀ (cfg : TranscriberCfg) (world : World) (t : Track) (save : Bool)
      (fs : FS), ∃ e, (transcribe_audio cfg world t save fs).1 = .error e) ∧
    (∀ (s : Store) (t : Track) (u : Uuid),
      storedTrackStatus (insert_track s t) u =
        if u = t.uuid then some t.status else storedTrackStatus s u) := by
  refine ⟨?_, ?_, ?_, ?_, storedTrackStatus_insert⟩
  · intro world s purl t ht
    unfold getPlaylistTracksMetadata at ht
    rcases hi : world.playlistInfo purl with _ | info
    · rw [hi] at ht
      cases ht
    · rw [hi] at ht
      dsimp only at ht
      by_cases he : info.entries.isEmpty = true
      · rw [if_pos he] at ht
        cases ht
      · rw [if_neg he] at ht
        exact collect_status_pending s purl info.title info.entries 0 t ht
  · intro world s url t ev h
    unfold getTrackMetadata at h
    rcases hi : world.trackInfo url with _ | info
    · rw [hi] at h
      cases h
    · rw [hi] at h
      dsimp only at h
      by_cases hm : (strFalsy info.webpage_url || strFalsy info.url) = true
      · rw [if_pos hm] at h
        cases h
      · rw [if_neg hm] at h
        by_cases htr : track_is_transcribed s (info.webpage_url.getD "")
            = true
        · rw [if_pos htr] at h
          cases h
        · rw [if_neg htr] at h
          have := congrArg (fun x => x.1) h
          simp only at this
          cases this
          rfl
  · intro cfg world t t1 fs fs1 ev h
    unfold downloadTrackArtifact at h
    by_cases hex : fs.pathExists (unique_audio_file_path cfg t.webpage_url)
        = true
    · rw [if_pos hex] at h
      have := congrArg (fun x => x.1) h
      simp only at this
      cases this
      exact ⟨rfl, fun h2 => h2⟩
    · rw [if_neg hex] at h
      by_cases hex2 : (world.fetch t.download_url
          (audioOuttmplBase cfg t.webpage_url) fs).pathExists
          (unique_audio_file_path cfg t.webpage_url) = true
      · rw [if_pos hex2] at h
        have := congrArg (fun x => x.1) h
        simp only at this
        cases this
        exact ⟨rfl, fun h2 => h2⟩
      · rw [if_neg hex2] at h
        have := congrArg (fun x => x.1) h
        simp only at this
        cases this
  · intro cfg world t save fs
    unfold transcribe_audio
    rcases h : transcribeAlignedResult cfg world t save fs with ⟨res, fs1, ev⟩
    cases res with
    | ok r => exact ⟨.noFieldTranscript, rfl⟩
    | error e => exact ⟨e, rfl⟩

/-- Witness for the amended monotonicity statement: the metadata stage
yields PENDING tracks (single-track and playlist cases) and the fetch stage
yields DOWNLOADED on a concrete PENDING track. -/
theorem status_monotone_in_flow_w :
    trackAP.status = .PENDING ∧ trackA.status = .PENDING ∧
    trackADownloaded.status = .DOWNLOADED :=
  ⟨status_monotone_in_flow.1 worldA store0 "https://p" trackAP (by decide),
   status_monotone_in_flow.2.1 worldA store0 urlA trackA
     [.extractInfo urlA] rfl,
   (status_monotone_in_flow.2.2.1 cfgD0 worldA trackA trackADownloaded
     fsAudioA fsAudioA [] rfl).1⟩

/-- C7: for a Track whose uuid is the resolved id of its canonical url (the
invariant the metadata stage establishes), if the artifact already exists at
the deterministic path derived from that resolved id, `_download_track`
performs no external fetch call (no fetch event, filesystem unchanged) and
returns the Track marked DOWNLOADED with `audio_file_path` set to that path;
conversely a fetch event can only be emitted when the artifact was absent. -/
theorem fetch_skipped_when_artifact_exists (cfg : DownloaderCfg)
    (world : World) (t : Track) (fs : FS)
    (hid : t.uuid = uuid5 t.webpage_url) :
    (fs.pathExists (audioPathOfUuid cfg t.uuid) = true →
      downloadTrackArtifact cfg world t fs =
        (.ok { t with audio_file_path := some (audioPathOfUuid cfg t.uuid),
                      status := .DOWNLOADED }, fs, [])) ∧
    ((downloadTrackArtifact cfg world t fs).2.2.any Event.isFetchCall = true →
      fs.pathExists (audioPathOfUuid cfg t.uuid) = false) := by
  have hp : unique_audio_file_path cfg t.webpage_url
      = audioPathOfUuid cfg t.uuid := by
    rw [hid]
    rfl
  constructor
  · intro hex
    unfold downloadTrackArtifact
    dsimp only
    rw [hp, if_pos hex]
  · intro hf
    cases hb : fs.pathExists (audioPathOfUuid cfg t.uuid) with
    | false => rfl
    | true =>
      unfold downloadTrackArtifact at hf
      dsimp only at hf
      rw [hp, if_pos hb] at hf
      simp [List.any_nil] at hf

/-- Witness for the fetch-skip theorem at a concrete track and filesystem
holding the artifact. -/
theorem fetch_skipped_when_artifact_exists_w :
    downloadTrackArtifact cfgD0 worldA trackA fsAudioA =
      (.ok { trackA with
              audio_file_path := some (audioPathOfUuid cfgD0 trackA.uuid),
              status := .DOWNLOADED }, fsAudioA, []) :=
  (fetch_skipped_when_artifact_exists cfgD0 worldA trackA fsAudioA rfl).1 rfl

/-- Helper: a setdefault for a key makes the key present. -/
theorem Segment.hasKey_setDefaultKey (seg : Segment) (k : String) (v : JVal) :
    (seg.setDefaultKey k v).hasKey k = true := by
  unfold Segment.setDefaultKey
  by_cases h : seg.hasKey k = true
  · rw [if_pos h]
    exact h
  · rw [if_neg h]
    unfold Segment.hasKey at h ⊢
    rw [List.any_append]
    simp

/-- Helper: every segment of a chars-normalized result carries the "chars"
key and is a setdefault image. -/
theorem mem_normalizeChars (r : AlignedTranscriptionResult) (seg : Segment)
    (h : seg ∈ (normalizeChars r).segments) :
    seg.hasKey "chars" = true ∧
      ∃ s0 : Segment, seg = s0.setDefaultKey "chars" JVal.null := by
  unfold normalizeChars at h
  dsimp only at h
  rcases List.mem_map.mp h with ⟨s0, _, heq⟩
  exact ⟨heq ▸ Segment.hasKey_setDefaultKey s0 "chars" JVal.null,
    ⟨s0, heq.symm⟩⟩

/-- C9: on every execution path of the transcribe stage that produces an
aligned result (fresh transcription or cache hit, save_to_disk either way),
every segment of the produced result carries a "chars" key, and each
segment is exactly a `setdefault("chars", None)` image (so the key was
defaulted to null when the underlying capability omitted it). -/
theorem aligned_segments_have_chars (cfg : TranscriberCfg) (world : World)
    (t : Track) (save : Bool) (fs : FS) (r : AlignedTranscriptionResult)
    (fs1 : FS) (ev : List Event)
    (h : transcribeAlignedResult cfg world t save fs = (.ok r, fs1, ev))
    (seg : Segment) (hseg : seg ∈ r.segments) :
    seg.hasKey "chars" = true ∧
      ∃ s0 : Segment, seg = s0.setDefaultKey "chars" JVal.null := by
  have hex : ∃ r0, r = normalizeChars r0 := by
    unfold transcribeAlignedResult at h
    cases save with
    | false =>
      rw [if_neg (by decide : ¬ ((false : Bool) = true))] at h
      rcases hp : performTranscriptionAndAlignment world t fs with ⟨res, ev2⟩
      rw [hp] at h
      try dsimp only at h
      cases res with
      | ok r2 =>
        simp only [Prod.mk.injEq, Except.ok.injEq] at h
        exact ⟨r2, h.1.symm⟩
      | error e => simp at h
    | true =>
      rw [if_pos (rfl : (true : Bool) = true)] at h
      by_cases hj : fs.pathExists (unique_transcript_file_path cfg
          t.webpage_url "json") = true
      · rw [if_pos hj] at h
        rcases hl : fs.lookup (unique_transcript_file_path cfg t.webpage_url
            "json") with _ | fd
        · rw [hl] at h
          simp at h
        · rw [hl] at h
          cases fd with
          | audio => simp at h
          | textFile s2 => simp at h
          | jsonFile r2 =>
            dsimp only at h
            by_cases ht2 : fs.pathExists (unique_transcript_file_path cfg
                t.webpage_url "txt") = true
            · rw [if_pos ht2] at h
              simp only [Prod.mk.injEq, Except.ok.injEq] at h
              exact ⟨r2, h.1.symm⟩
            · rw [if_neg ht2] at h
              rcases hr2 : rawTextOfAligned r2 with e | raw
              · rw [hr2] at h
                simp at h
              · rw [hr2] at h
                simp only [Prod.mk.injEq, Except.ok.injEq] at h
                exact ⟨r2, h.1.symm⟩
      · rw [if_neg hj] at h
        rcases hp : performTranscriptionAndAlignment world t fs with ⟨res, ev2⟩
        rw [hp] at h
        try dsimp only at h
        cases res with
        | ok r2 =>
          dsimp only at h
          rcases hr2 : rawTextOfAligned r2 with e | raw
          · rw [hr2] at h
            simp at h
          · rw [hr2] at h
            simp only [Prod.mk.injEq, Except.ok.injEq] at h
            exact ⟨r2, h.1.symm⟩
        | error e => simp at h
  rcases hex with ⟨r0, hr0⟩
  rw [hr0] at hseg
  exact mem_normalizeChars r0 seg hseg

/-- Witness for the chars-normalization theorem on a concrete cache-hit
path: the cached segment had no "chars" key and the produced one carries it
bound to null. -/
theorem aligned_segments_have_chars_w :
    Segment.hasKey [("text", JVal.str "hello"), ("chars", JVal.null)]
      "chars" = true ∧
    ∃ s0 : Segment,
      ([("text", JVal.str "hello"), ("chars", JVal.null)] : Segment)
        = Segment.setDefaultKey s0 "chars" JVal.null :=
  aligned_segments_have_chars cfgT0 worldA trackA true fsCacheA
    (normalizeChars resultA) fsCacheA
    [.cacheRead (unique_transcript_file_path cfgT0 urlA "json")] rfl
    [("text", JVal.str "hello"), ("chars", JVal.null)] (by decide)

/-- Helper: per-entry behavior of the playlist metadata walk, generalized
over the starting enumeration index: every collected track is numbered
strictly past the start index; a skipped entry (falsy canonical or media
url) logs its 1-based-index warning and no collected track carries its
number; a kept entry (complete metadata, not recorded as transcribed)
yields a PENDING track carrying its number and canonical url. -/
theorem collect_spec (s : Store) (purl : String) (ptitle : Option String)
    (l : List TrackInfo) (k : Nat) :
    (∀ t, t ∈ (collectPlaylistTracks s purl ptitle l k).1 →
      ∃ m : Nat, t.track_number_in_playlist = some (Int.ofNat m) ∧ k < m) ∧
    (∀ i (hi : i < l.length), skipB l[i] = true →
      Event.logWarning (k + i + 1) ∈
        (collectPlaylistTracks s purl ptitle l k).2 ∧
      ∀ t, t ∈ (collectPlaylistTracks s purl ptitle l k).1 →
        t.track_number_in_playlist ≠ some (Int.ofNat (k + i + 1))) ∧
    (∀ i (hi : i < l.length), skipB l[i] = false →
      track_is_transcribed s (l[i].webpage_url.getD "") = false →
      ∃ t, t ∈ (collectPlaylistTracks s purl ptitle l k).1 ∧
        t.track_number_in_playlist = some (Int.ofNat (k + i + 1)) ∧
        t.webpage_url = l[i].webpage_url.getD "" ∧
        t.status = .PENDING) := by
  induction l generalizing k with
  | nil =>
    refine ⟨?_, ?_, ?_⟩
    · intro t ht
      cases ht
    · intro i hi
      exact absurd hi (Nat.not_lt_zero i)
    · intro i hi
      exact absurd hi (Nat.not_lt_zero i)
  | cons e rest ih =>
    by_cases hs : skipB e = true
    · have hC : collectPlaylistTracks s purl ptitle (e :: rest) k =
          ((collectPlaylistTracks s purl ptitle rest (k + 1)).1,
            Event.logWarning (k + 1) ::
              (collectPlaylistTracks s purl ptitle rest (k + 1)).2) := by
        simp only [collectPlaylistTracks]
        rw [if_pos hs]
      rw [hC]
      dsimp only
      refine ⟨?_, ?_, ?_⟩
      · intro t ht
        obtain ⟨m, hm, hk⟩ := (ih (k + 1)).1 t ht
        exact ⟨m, hm, by omega⟩
      · intro i hi hskip
        cases i with
        | zero =>
          refine ⟨List.mem_cons_self _ _, ?_⟩
          intro t ht hcon
          obtain ⟨m, hm, hk⟩ := (ih (k + 1)).1 t ht
          rw [hm] at hcon
          injection hcon with h1
          injection h1 with h2
          omega
        | succ j =>
          have hj := Nat.lt_of_succ_lt_succ hi
          simp only [List.getElem_cons_succ] at hskip
          obtain ⟨hw, hnt⟩ := (ih (k + 1)).2.1 j hj hskip
          refine ⟨?_, ?_⟩
          · rw [(show k + (j + 1) + 1 = k + 1 + j + 1 by omega)]
            exact List.mem_cons_of_mem _ hw
          · intro t ht
            rw [(show k + (j + 1) + 1 = k + 1 + j + 1 by omega)]
            exact hnt t ht
      · intro i hi hskip htr
        cases i with
        | zero =>
          simp only [List.getElem_cons_zero] at hskip
          rw [hskip] at hs
          exact Bool.noConfusion hs
        | succ j =>
          have hj := Nat.lt_of_succ_lt_succ hi
          simp only [List.getElem_cons_succ] at hskip htr
          obtain ⟨t, ht, hnum, hurl, hst⟩ := (ih (k + 1)).2.2 j hj hskip htr
          refine ⟨t, ht, ?_, ?_, hst⟩
          · rw [(show k + (j + 1) + 1 = k + 1 + j + 1 by omega)]
            exact hnum
          · simp only [List.getElem_cons_succ]
            exact hurl
    · by_cases htr0 : track_is_transcribed s (e.webpage_url.getD "") = true
      · have hC : collectPlaylistTracks s purl ptitle (e :: rest) k =
            collectPlaylistTracks s purl ptitle rest (k + 1) := by
          simp only [collectPlaylistTracks]
          rw [if_neg hs, if_pos htr0]
        rw [hC]
        refine ⟨?_, ?_, ?_⟩
        · intro t ht
          obtain ⟨m, hm, hk⟩ := (ih (k + 1)).1 t ht
          exact ⟨m, hm, by omega⟩
        · intro i hi hskip
          cases i with
          | zero =>
            simp only [List.getElem_cons_zero] at hskip
            exact absurd hskip hs
          | succ j =>
            have hj := Nat.lt_of_succ_lt_succ hi
            simp only [List.getElem_cons_succ] at hskip
            obtain ⟨hw, hnt⟩ := (ih (k + 1)).2.1 j hj hskip
            refine ⟨?_, ?_⟩
            · rw [(show k + (j + 1) + 1 = k + 1 + j + 1 by omega)]
              exact hw
            · intro t ht
              rw [(show k + (j + 1) + 1 = k + 1 + j + 1 by omega)]
              exact hnt t ht
        · intro i hi hskip htr
          cases i with
          | zero =>
            simp only [List.getElem_cons_zero] at htr
            rw [htr] at htr0
            exact Bool.noConfusion htr0
          | succ j =>
            have hj := Nat.lt_of_succ_lt_succ hi
            simp only [List.getElem_cons_succ] at hskip htr
            obtain ⟨t, ht, hnum, hurl, hst⟩ := (ih (k + 1)).2.2 j hj hskip htr
            refine ⟨t, ht, ?_, ?_, hst⟩
            · rw [(show k + (j + 1) + 1 = k + 1 + j + 1 by omega)]
              exact hnum
            · simp only [List.getElem_cons_succ]
              exact hurl
      · have hC : collectPlaylistTracks s purl ptitle (e :: rest) k =
            (entryTrack purl ptitle k e ::
              (collectPlaylistTracks s purl ptitle rest (k + 1)).1,
              (collectPlaylistTracks s purl ptitle rest (k + 1)).2) := by
          simp only [collectPlaylistTracks]
          rw [if_neg hs, if_neg htr0]
        rw [hC]
        dsimp only
        refine ⟨?_, ?_, ?_⟩
        · intro t ht
          rcases List.mem_cons.mp ht with h | h
          · refine ⟨k + 1, ?_, by omega⟩
            rw [h]
            rfl
          · obtain ⟨m, hm, hk⟩ := (ih (k + 1)).1 t h
            exact ⟨m, hm, by omega⟩
        · intro i hi hskip
          cases i with
          | zero =>
            simp only [List.getElem_cons_zero] at hskip
            exact absurd hskip hs
          | succ j =>
            have hj := Nat.lt_of_succ_lt_succ hi
            simp only [List.getElem_cons_succ] at hskip
            obtain ⟨hw, hnt⟩ := (ih (k + 1)).2.1 j hj hskip
            refine ⟨?_, ?_⟩
            · rw [(show k + (j + 1) + 1 = k + 1 + j + 1 by omega)]
              exact hw
            · intro t ht
              rcases List.mem_cons.mp ht with h | h
              · rw [h]
                intro hcon
                injection hcon with h1
                injection h1 with h2
                omega
              · rw [(show k + (j + 1) + 1 = k + 1 + j + 1 by omega)]
                exact hnt t h
        · intro i hi hskip htr
          cases i with
          | zero =>
            exact ⟨entryTrack purl ptitle k e, List.mem_cons_self _ _,
              rfl, rfl, rfl⟩
          | succ j =>
            have hj := Nat.lt_of_succ_lt_succ hi
            simp only [List.getElem_cons_succ] at hskip htr
            obtain ⟨t, ht, hnum, hurl, hst⟩ := (ih (k + 1)).2.2 j hj hskip htr
            refine ⟨t, List.mem_cons_of_mem _ ht, ?_, ?_, hst⟩
            · rw [(show k + (j + 1) + 1 = k + 1 + j + 1 by omega)]
              exact hnum
            · simp only [List.getElem_cons_succ]
              exact hurl

/-- Helper: the playlist metadata walk emits only skip warnings. -/
theorem collect_events_warn (s : Store) (purl : String)
    (ptitle : Option String) (l : List TrackInfo) (k : Nat) :
    ∀ ev, ev ∈ (collectPlaylistTracks s purl ptitle l k).2 →
      ∃ n, ev = Event.logWarning n := by
  induction l generalizing k with
  | nil =>
    intro ev h
    cases h
  | cons e rest ih =>
    intro ev h
    unfold collectPlaylistTracks at h
    dsimp only at h
    by_cases hs : skipB e = true
    · rw [if_pos hs] at h
      rcases List.mem_cons.mp h with h | h
      · exact ⟨k + 1, h⟩
      · exact ih (k + 1) ev h
    · rw [if_neg hs] at h
      by_cases htr : track_is_transcribed s (e.webpage_url.getD "") = true
      · rw [if_pos htr] at h
        exact ih (k + 1) ev h
      · rw [if_neg htr] at h
        exact ih (k + 1) ev h

/-- Helper: the fetch stage emits either no event (artifact already present)
or exactly one fetch call carrying the track's media url. -/
theorem downloadTrackArtifact_events (cfg : DownloaderCfg) (world : World)
    (t : Track) (fs : FS) :
    (downloadTrackArtifact cfg world t fs).2.2 = [] ∨
    (downloadTrackArtifact cfg world t fs).2.2 =
      [.fetchDownload t.download_url (audioOuttmplBase cfg t.webpage_url)] := by
  unfold downloadTrackArtifact
  dsimp only
  by_cases h : fs.pathExists (unique_audio_file_path cfg t.webpage_url) = true
  · rw [if_pos h]
    left
    rfl
  · rw [if_neg h]
    by_cases h2 : (world.fetch t.download_url
        (audioOuttmplBase cfg t.webpage_url) fs).pathExists
        (unique_audio_file_path cfg t.webpage_url) = true
    · rw [if_pos h2]
      right
      rfl
    · rw [if_neg h2]
      right
      rfl

/-- Helper: every fetch event of the playlist download loop carries the
media url of one of the tracks in the list. -/
theorem downloadAll_fetch_src (cfg : DownloaderCfg) (world : World)
    (l : List Track) (fs : FS) (d b : String)
    (h : Event.fetchDownload d b ∈ (downloadAllTracks cfg world l fs).2.2) :
    ∃ t, t ∈ l ∧ t.download_url = d := by
  induction l generalizing fs with
  | nil => cases h
  | cons t rest ih =>
    unfold downloadAllTracks at h
    rcases hd : downloadTrackArtifact cfg world t fs with ⟨res, fs1, ev⟩
    rw [hd] at h
    have hev := downloadTrackArtifact_events cfg world t fs
    rw [hd] at hev
    dsimp only at hev
    cases res with
    | error e =>
      dsimp only at h
      rcases hev with hev | hev
      · rw [hev] at h
        cases h
      · rw [hev] at h
        rcases List.mem_cons.mp h with h | h
        · injection h with h1 h2
          exact ⟨t, List.mem_cons_self _ _, h1.symm⟩
        · cases h
    | ok t1 =>
      dsimp only at h
      rcases hda : downloadAllTracks cfg world rest fs1 with ⟨r2, fs2, ev2⟩
      rw [hda] at h
      dsimp only at h
      rcases List.mem_append.mp h with h | h
      · rcases hev with hev | hev
        · rw [hev] at h
          cases h
        · rw [hev] at h
          rcases List.mem_cons.mp h with h | h
          · injection h with h1 h2
            exact ⟨t, List.mem_cons_self _ _, h1.symm⟩
          · cases h
      · obtain ⟨t2, ht2, hu⟩ := ih fs1 (by rw [hda]; exact h)
        exact ⟨t2, List.mem_cons_of_mem _ ht2, hu⟩

/-- C8: in a playlist, an entry with a missing canonical or media url is
skipped with a logged warning carrying its 1-based index, contributes no
Track to the batch (so it is never fetched, transcribed, or written to the
anyway-never-written store) and raises no error, while every sibling entry
with complete metadata that is not already recorded as transcribed still
yields its PENDING Track with its own number and canonical url; moreover
every fetch call the playlist download performs carries the media url of
one of the collected (non-skipped) tracks. -/
theorem playlist_missing_metadata_skipped (world : World) (s : Store)
    (purl : String) (info : PlaylistInfo)
    (hinfo : world.playlistInfo purl = some info) :
    (∀ i (hi : i < info.entries.length), skipB info.entries[i] = true →
      Event.logWarning (i + 1) ∈ (getPlaylistTracksMetadata world s purl).2 ∧
      ∀ t, t ∈ (getPlaylistTracksMetadata world s purl).1 →
        t.track_number_in_playlist ≠ some (Int.ofNat (i + 1))) ∧
    (∀ i (hi : i < info.entries.length), skipB info.entries[i] = false →
      track_is_transcribed s (info.entries[i].webpage_url.getD "") = false →
      ∃ t, t ∈ (getPlaylistTracksMetadata world s purl).1 ∧
        t.track_number_in_playlist = some (Int.ofNat (i + 1)) ∧
        t.webpage_url = info.entries[i].webpage_url.getD "" ∧
        t.status = .PENDING) ∧
    (∀ (cfg : DownloaderCfg) (fs : FS) (d b : String),
      Event.fetchDownload d b ∈ (download_playlist cfg world s purl fs).2.2 →
      ∃ t, t ∈ (getPlaylistTracksMetadata world s purl).1 ∧
        t.download_url = d) := by
  by_cases he : info.entries.isEmpty = true
  · have hlen : info.entries.length = 0 := by
      cases hl : info.entries with
      | nil => rfl
      | cons a l =>
        rw [hl] at he
        exact Bool.noConfusion he
    have hmeta : getPlaylistTracksMetadata world s purl =
        ([], [.extractInfo purl, .logWarnMsg "no entries"]) := by
      unfold getPlaylistTracksMetadata
      rw [hinfo]
      dsimp only
      rw [if_pos he]
    refine ⟨?_, ?_, ?_⟩
    · intro i hi
      rw [hlen] at hi
      exact absurd hi (Nat.not_lt_zero i)
    · intro i hi
      rw [hlen] at hi
      exact absurd hi (Nat.not_lt_zero i)
    · intro cfg fs d b hmem
      unfold download_playlist at hmem
      rw [hmeta] at hmem
      dsimp only at hmem
      simp [downloadAllTracks] at hmem
  · have hmeta : getPlaylistTracksMetadata world s purl =
        ((collectPlaylistTracks s purl info.title info.entries 0).1,
          .extractInfo purl ::
            (collectPlaylistTracks s purl info.title info.entries 0).2) := by
      unfold getPlaylistTracksMetadata
      rw [hinfo]
      dsimp only
      rw [if_neg he]
    rw [hmeta]
    have hspec := collect_spec s purl info.title info.entries 0
    refine ⟨?_, ?_, ?_⟩
    · intro i hi hskip
      obtain ⟨hw, hnt⟩ := hspec.2.1 i hi hskip
      refine ⟨?_, ?_⟩
      · rw [(show i + 1 = 0 + i + 1 by omega)]
        exact List.mem_cons_of_mem _ hw
      · intro t ht
        rw [(show i + 1 = 0 + i + 1 by omega)]
        exact hnt t ht
    · intro i hi hskip htr
      obtain ⟨t, ht, hnum, hurl, hst⟩ := hspec.2.2 i hi hskip htr
      refine ⟨t, ht, ?_, hurl, hst⟩
      rw [(show i + 1 = 0 + i + 1 by omega)]
      exact hnum
    · intro cfg fs d b hmem
      unfold download_playlist at hmem
      rw [hmeta] at hmem
      dsimp only at hmem
      rcases hda : downloadAllTracks cfg world
          (collectPlaylistTracks s purl info.title info.entries 0).1 fs
        with ⟨r2, fs2, ev2⟩
      rw [hda] at hmem
      dsimp only at hmem
      rcases List.mem_cons.mp hmem with h | h
      · exact absurd h (by simp)
      · rcases List.mem_append.mp h with h | h
        · obtain ⟨n, hn⟩ := collect_events_warn s purl info.title
            info.entries 0 _ h
          exact absurd hn (by simp)
        · exact downloadAll_fetch_src cfg world _ fs d b
            (by rw [hda]; exact h)

/-- Witness for the playlist-skip theorem on the concrete playlist whose
second entry lacks its canonical url: the index-2 warning is logged, and the
valid third entry still yields its PENDING track numbered 3. -/
theorem playlist_missing_metadata_skipped_w :
    Event.logWarning 2 ∈ (getPlaylistTracksMetadata worldA store0
      "https://p").2 ∧
    (∃ t, t ∈ (getPlaylistTracksMetadata worldA store0 "https://p").1 ∧
      t.track_number_in_playlist = some (Int.ofNat 3) ∧
      t.webpage_url = "https://x/c" ∧ t.status = .PENDING) :=
  ⟨((playlist_missing_metadata_skipped worldA store0 "https://p"
      { title := some "P", entries := [infoA, infoBad, infoC] } rfl).1
      1 (by decide) rfl).1,
   (playlist_missing_metadata_skipped worldA store0 "https://p"
      { title := some "P", entries := [infoA, infoBad, infoC] } rfl).2.1
      2 (by decide) rfl rfl⟩

end TranscriptionPipeline
